import Mathlib

/-!
Shallow embedding of the webhook-trader order-execution core
(`src/app.py` endpoint `webhook` and `src/lib/utils.py` functions
`exec_trade`, `close_position`, and the fill-wait loops).

Prices and monetary amounts are modelled as exact rationals (`ℚ`);
Python `round(x, 2)` is modelled by `round2` (round half to even, as
Python's `round` does on exact values); `math.floor` is `Int.floor`.
Broker interaction is modelled by explicit oracle structures supplying
the results of each external call, and executions produce a trace of
broker actions (submissions and cancellations) in program order.
-/

namespace WebhookTrader

/-- `order.action` values: `"buy"` or `"sell"`. -/
inductive Action | buy | sell
deriving DecidableEq, Repr

/-- `order.market_position` values: `"long"`, `"short"` or `"flat"`. -/
inductive MPos | long | short | flat
deriving DecidableEq, Repr

/-- `order.asset_class` values: `"stock"` or `"crypto"`. -/
inductive AssetClass | stock | crypto
deriving DecidableEq, Repr

/-- Alpaca order sides. -/
inductive Side | buy | sell
deriving DecidableEq, Repr

/-- Alpaca time-in-force values used by the code. -/
inductive TimeInForce | day | gtc
deriving DecidableEq, Repr

/-- Alpaca order statuses observed by the code. -/
inductive OrderStatus
| new | partiallyFilled | filled | canceled | expired | doneForDay | accepted
deriving DecidableEq, Repr

/-- `FINISHED_STATUSES` from `src/lib/utils.py` lines 21-22. -/
def FINISHED_STATUSES : List OrderStatus :=
  [OrderStatus.filled, OrderStatus.canceled, OrderStatus.expired, OrderStatus.doneForDay]

/-- `MAX_WAIT = 30.0` from `src/lib/utils.py` line 24. -/
def MAX_WAIT : ℚ := 30

/-- Python truthiness of an optional float field (`None` and `0.0` are falsy). -/
def qSet : Option ℚ → Bool
| none => false
| some x => decide (x ≠ 0)

/-- The inbound signal (`lib.db.Order` as used by `app.py` and `utils.py`). -/
structure Order where
  ticker : String
  action : Action
  market_position : MPos
  price : ℚ
  buying_power_pct : ℚ
  leveraged : Bool
  asset_class : AssetClass
  sl : Option ℚ := none
  tp : Option ℚ := none
  trailing_stop : Option ℚ := none
  max_slippage : Option ℚ := none
  high : Option ℚ := none
  nickname : Option String := none
  order_id : Option String := none
deriving DecidableEq, Repr

/-- Account snapshot fields read by the code. -/
structure Account where
  buying_power : ℚ
  non_marginable_buying_power : ℚ
  equity : ℚ
  daytrade_count : ℕ
deriving DecidableEq, Repr

/-- A broker position as read back by `get_current_position`. -/
structure Position where
  symbol : String
  side : MPos
  qty : ℚ
deriving DecidableEq, Repr

/-- A broker order as returned by `submit_order` / `get_order_by_id`. -/
structure AlpacaOrder where
  id : String
  symbol : String
  status : OrderStatus
  filled_qty : ℚ
  filled_avg_price : ℚ
deriving DecidableEq, Repr

/-- Latest-quote fields used by the slippage guard. -/
structure Quote where
  bid_price : ℚ
  ask_price : ℚ
deriving DecidableEq, Repr

/-- Round half to even (Python's `round` on exact values). -/
def roundHalfEven (x : ℚ) : ℤ :=
  let f := ⌊x⌋
  let frac := x - f
  if frac < 1/2 then f
  else if 1/2 < frac then f + 1
  else if f % 2 = 0 then f else f + 1

/-- Python `round(x, 2)`. -/
def round2 (x : ℚ) : ℚ := (roundHalfEven (x * 100) : ℚ) / 100

/-- Broker order requests built by `exec_trade`.  `market` covers plain
`MarketOrderRequest`s; `bracketMarket` is a `MarketOrderRequest` carrying
`stop_loss`/`take_profit` legs with `order_class=BRACKET`; `limitExt` is the
extended-hours `LimitOrderRequest`; `stop`, `stopLimit` and `trailingStop`
are the synthesized exit orders. -/
inductive OrderReq
| market (symbol : String) (qty : ℚ) (tif : TimeInForce) (side : Side)
| bracketMarket (symbol : String) (qty : ℚ) (tif : TimeInForce) (side : Side)
    (stop_price limit_price : ℚ)
| limitExt (symbol : String) (qty : ℚ) (tif : TimeInForce) (side : Side)
    (limit_price : ℚ)
| stop (symbol : String) (qty : ℚ) (tif : TimeInForce) (side : Side) (stop_price : ℚ)
| stopLimit (symbol : String) (qty : ℚ) (tif : TimeInForce) (side : Side)
    (limit_price stop_price : ℚ)
| trailingStop (symbol : String) (qty : ℚ) (tif : TimeInForce) (side : Side)
    (trail_percent : ℚ)
deriving DecidableEq, Repr

/-- Alpaca order classes distinguished by the code (`order_req.order_class`). -/
inductive OrderClass | simple | bracket
deriving DecidableEq, Repr

/-- The `order_class` attribute of a request: `BRACKET` exactly for the
bracket market order, `SIMPLE` otherwise. -/
def OrderReq.order_class : OrderReq → OrderClass
| .bracketMarket _ _ _ _ _ _ => .bracket
| _ => .simple

/-- Errors raised by the embedded code.  `insufficientNotional` is the
`"Notional value is less than $1"` exception, `invalidQuantity` is the
`"Limit orders must have a integer quantity greater than 0"` exception,
`injected` is a simulated broker/construction failure, and `nameError` is
the `UnboundLocalError` raised when the `except` handler reads the local
`alpaca_order` before the entry submission ever bound it. -/
inductive ExecErr
| insufficientNotional
| invalidQuantity
| injected
| nameError
deriving DecidableEq, Repr

/-- The buying-power source selected by `exec_trade` lines 92-94:
non-marginable buying power when leveraged or crypto, else standard. -/
def buying_power_source (acc : Account) (o : Order) : ℚ :=
  if o.leveraged || o.asset_class == AssetClass.crypto then
    acc.non_marginable_buying_power
  else acc.buying_power

/-- `notional = round(buying_power * order.buying_power_pct, 2)` (line 97). -/
def notionalOf (acc : Account) (o : Order) : ℚ :=
  round2 (buying_power_source acc o * o.buying_power_pct)

/-- `qty = math.floor(notional / order.price)` (line 99). -/
def qtyOf (acc : Account) (o : Order) : ℤ :=
  ⌊notionalOf acc o / o.price⌋

/-- Whether any of the three exit fields is (truthily) set:
the condition of line 113. -/
def exitFieldSet (o : Order) : Bool :=
  qSet o.trailing_stop || qSet o.sl || qSet o.tp

/-- Entry order side: `BUY if order.action == "buy" else SELL` (line 109). -/
def entrySide (o : Order) : Side :=
  if o.action == Action.buy then .buy else .sell

/-- Entry time in force: `DAY` unless crypto, which gets `GTC` (line 108). -/
def entryTif (o : Order) : TimeInForce :=
  if o.asset_class == AssetClass.crypto then .gtc else .day

/-- Entry-request construction, `exec_trade` lines 88-165.  The source
builds a market request then conditionally overwrites it (exit-field
share-quantity re-check, bracket, extended-hours limit), raising on the
sizing violations along the way; here the same straight-line overwriting
code is written as a branch tree.  The guards appear in source order
(lines 102, 115, 136, 155); the surviving request is the extended-hours
limit (lines 153-165) when that branch ran last, else the bracket
(lines 134-151), else the plain market request (lines 105-124). -/
def buildEntry (acc : Account) (o : Order) (extended_hours : Bool) :
    Except ExecErr OrderReq :=
  let notional := notionalOf acc o
  let qty : ℚ := (qtyOf acc o : ℚ)
  if notional < 1 then .error ExecErr.insufficientNotional
  else if exitFieldSet o ∧ qty < 1 then .error ExecErr.invalidQuantity
  else if ¬extended_hours ∧ qSet o.tp ∧ qSet o.sl ∧ qty < 1 then
    .error ExecErr.invalidQuantity
  else if extended_hours ∧ o.asset_class ≠ AssetClass.crypto ∧ qty < 1 then
    .error ExecErr.invalidQuantity
  else if extended_hours ∧ o.asset_class ≠ AssetClass.crypto then
    .ok (OrderReq.limitExt o.ticker qty TimeInForce.day (entrySide o)
      (if qSet o.high then o.high.getD 0 else o.price))
  else if ¬extended_hours ∧ qSet o.tp ∧ qSet o.sl then
    .ok (OrderReq.bracketMarket o.ticker qty TimeInForce.gtc (entrySide o)
      (round2 (o.price * (1 - o.sl.getD 0)))
      (round2 (o.price * (1 + o.tp.getD 0))))
  else .ok (OrderReq.market o.ticker qty (entryTif o) (entrySide o))

/-- Result of one fill-wait loop run: the order held when the loop exits,
how many `get_order_by_id` polls were consumed, and how many 250ms sleeps
were performed. -/
structure WaitResult where
  order : AlpacaOrder
  pollsUsed : ℕ
  sleeps : ℕ
deriving DecidableEq, Repr

/-- The fill-wait loop (`exec_trade` lines 176-182 and 255-261,
`close_position` lines 282-288).  `polls` supplies the successive
`get_order_by_id` results, each paired with the elapsed wall-clock seconds
at the deadline check that follows the poll.  Per iteration: if the held
status is terminal the loop exits at once; otherwise it sleeps 250ms
(unless the held status is `new`), polls, and breaks with the freshly
polled order when the elapsed time has reached `MAX_WAIT`.  An exhausted
`polls` list leaves the loop holding its current order (theorems below
supply enough polls to never hit this case while non-terminal). -/
def fillWait (a : AlpacaOrder) (polls : List (AlpacaOrder × ℚ)) : WaitResult :=
  if a.status ∈ FINISHED_STATUSES then ⟨a, 0, 0⟩
  else match polls with
    | [] => ⟨a, 0, 0⟩
    | (a', t) :: rest =>
      let s : ℕ := if a.status ≠ OrderStatus.new then 1 else 0
      if MAX_WAIT ≤ t then ⟨a', 1, s⟩
      else
        let r := fillWait a' rest
        ⟨r.order, r.pollsUsed + 1, r.sleeps + s⟩

/-- Broker calls attempted by `exec_trade`, in program order.  A call
that raises is still recorded — the attempt was made; the trace contains
no entry for the exit-order construction, which is pure Python and makes
no broker call. -/
inductive BrokerAction
| submit (req : OrderReq)
| cancel (id : String)
deriving DecidableEq, Repr

/-- Sites in `exec_trade` where a broker call or the exit-order
construction can raise: the entry `submit_order` (line 175), the cancel
of an unfilled entry (line 185) and the exit-order construction
(lines 192-224) are inside the `try` block of lines 172-248, while the
final `submit_order` of lines 250-253 — the call that submits the derived
exit order on the exit path — is outside it, so a failure there is not
seen by the `except` handler. -/
inductive InjSite
| atSubmit
| atCancel
| atConstruct
| atFinalSubmit
deriving DecidableEq, Repr

/-- Oracle for one `exec_trade` run: the order returned by the entry
`submit_order`, the wait-loop polls, an optional simulated failure at one
of the `InjSite`s, and the order returned by the final `submit_order`
(with its own polls when `wait_for_fill`). -/
structure ExecEnv where
  entry : AlpacaOrder
  polls : List (AlpacaOrder × ℚ) := []
  inj : Option InjSite := none
  finalResult : AlpacaOrder
  finalPolls : List (AlpacaOrder × ℚ) := []
deriving DecidableEq, Repr

/-- The `except` handler of `exec_trade` (lines 225-248).  `bound` is the
value of the local `alpaca_order` when the handler runs (`none` when the
entry submission itself raised, so the local was never bound — reading it
then raises `UnboundLocalError`, modelled as `nameError`).  Returns the
liquidation actions performed and the error that escapes the handler. -/
def recover (bound : Option AlpacaOrder) (e : ExecErr) :
    List BrokerAction × ExecErr :=
  match bound with
  | none => ([], ExecErr.nameError)
  | some a =>
    if a.status = OrderStatus.filled then
      ([BrokerAction.submit
          (OrderReq.market a.symbol a.filled_qty TimeInForce.gtc Side.sell)], e)
    else if a.status = OrderStatus.partiallyFilled then
      ([BrokerAction.cancel a.id,
        BrokerAction.submit
          (OrderReq.market a.symbol a.filled_qty TimeInForce.gtc Side.sell)], e)
    else ([], e)

/-- Outcome of an `exec_trade` run: the broker actions in program order and
either the returned `AlpacaOrder` or the escaping error. -/
structure ExecOutcome where
  actions : List BrokerAction
  result : Except ExecErr AlpacaOrder
deriving Repr

/-- The derived exit request, `exec_trade` lines 192-224: stop order when
`sl` is set, else stop-limit when `tp` is set, else trailing stop. -/
def exitRequest (o : Order) (aw : AlpacaOrder) : OrderReq :=
  if qSet o.sl then
    OrderReq.stop aw.symbol aw.filled_qty TimeInForce.gtc Side.sell
      (round2 (aw.filled_avg_price * (1 - o.sl.getD 0)))
  else if qSet o.tp then
    OrderReq.stopLimit aw.symbol aw.filled_qty TimeInForce.gtc Side.sell
      (round2 (aw.filled_avg_price * (1 + o.tp.getD 0)))
      (round2 (aw.filled_avg_price * (1 - o.tp.getD 0)))
  else
    OrderReq.trailingStop aw.symbol aw.filled_qty TimeInForce.gtc Side.sell
      (o.trailing_stop.getD 0 * 100)

/-- `exec_trade` (`src/lib/utils.py` lines 87-263).  Entry construction,
then for buy-side non-bracket orders with an exit field the sequential
submit / wait / cancel-or-synthesize protocol under the failure-recovery
handler, then the final submission of lines 250-263 (with an optional
fill wait).  That final `submit_order` sits outside the `try` block of
lines 172-248, so when it raises (`atFinalSubmit`) the error escapes
without any handler running. -/
def exec_trade (acc : Account) (o : Order) (env : ExecEnv)
    (extended_hours : Bool := false) (wait_for_fill : Bool := false) :
    ExecOutcome :=
  match buildEntry acc o extended_hours with
  | .error e => ⟨[], .error e⟩
  | .ok req0 =>
    let submitFinal (acts : List BrokerAction) (req : OrderReq) : ExecOutcome :=
      if env.inj = some InjSite.atFinalSubmit then
        ⟨acts ++ [BrokerAction.submit req], .error ExecErr.injected⟩
      else if !wait_for_fill then
        ⟨acts ++ [BrokerAction.submit req], .ok env.finalResult⟩
      else
        ⟨acts ++ [BrokerAction.submit req],
          .ok (fillWait env.finalResult env.finalPolls).order⟩
    if req0.order_class != OrderClass.bracket && o.action == Action.buy then
      if exitFieldSet o then
        if env.inj = some InjSite.atSubmit then
          let (racts, re) := recover none ExecErr.injected
          ⟨BrokerAction.submit req0 :: racts, .error re⟩
        else
          let aw := (fillWait env.entry env.polls).order
          if aw.status != OrderStatus.filled then
            if env.inj = some InjSite.atCancel then
              let (racts, re) := recover (some aw) ExecErr.injected
              ⟨BrokerAction.submit req0 :: BrokerAction.cancel aw.id :: racts,
                .error re⟩
            else
              ⟨[BrokerAction.submit req0, BrokerAction.cancel aw.id],
                .ok { aw with status := OrderStatus.canceled }⟩
          else
            if env.inj = some InjSite.atConstruct then
              let (racts, re) := recover (some aw) ExecErr.injected
              ⟨BrokerAction.submit req0 :: racts, .error re⟩
            else
              submitFinal [BrokerAction.submit req0] (exitRequest o aw)
      else
        submitFinal [] req0
    else
      submitFinal [] req0

/-- Oracle for `close_position`: the order returned by the broker's
`close_position` call (`none` when it raised — swallowed), and the
wait-loop polls. -/
structure CloseEnv where
  result : Option AlpacaOrder := none
  polls : List (AlpacaOrder × ℚ) := []
deriving DecidableEq, Repr

/-- `close_position` (`src/lib/utils.py` lines 275-291): percentage-based
liquidation; failures are swallowed and `none` is returned; with
`wait_for_fill` the fill-wait loop runs on the close order. -/
def close_position (env : CloseEnv) (wait_for_fill : Bool := false) :
    Option AlpacaOrder :=
  match env.result with
  | none => none
  | some p =>
    if wait_for_fill then some (fillWait p env.polls).order else some p

/-- Python truthiness of an optional string (`None` and `""` are falsy). -/
def strTruthy : Option String → Bool
| none => false
| some s => decide (s ≠ "")

/-- The request-level defaulting at the top of `webhook`
(`app.py` lines 80-84): `nickname` defaults to the path name, and a falsy
`max_slippage` is replaced by `0`. -/
def normalizeOrder (name : String) (o : Order) : Order :=
  let o1 := if strTruthy o.nickname then o else { o with nickname := some name }
  if qSet o1.max_slippage then o1 else { o1 with max_slippage := some 0 }

/-- HTTP-level outcomes of the `webhook` endpoint. -/
inductive WebhookResult
| unauthorized
| echoed (o : Order)
| patternDayTrader
| slippageTooHigh
| raised (e : ExecErr)
deriving DecidableEq, Repr

/-- Broker-visible actions of one `webhook` request, in program order:
a `close_position` call (recording the order it returned after its own
fill wait) or an `exec_trade` broker action. -/
inductive WebhookAction
| closePos (ticker : String) (result : Option AlpacaOrder)
| broker (a : BrokerAction)
deriving DecidableEq, Repr

/-- Oracle for one `webhook` request: gate flags, the account snapshot,
the open position (if any), the latest quote, and the `exec_trade` /
`close_position` oracles. -/
structure WebhookEnv where
  ipAllowed : Bool := true
  testMode : Bool := false
  extended_hours : Bool := false
  account : Account
  position : Option Position := none
  quote : Quote := ⟨0, 0⟩
  execEnv : ExecEnv
  closeEnv : CloseEnv := {}
deriving DecidableEq, Repr

/-- Position reconciliation, `app.py` lines 108-139, run on the
(already-defaulted) order once every gate has passed: fresh open with the
slippage guard when no position is held; idempotent no-op echo when the
held side matches the desired side or the desired side is flat;
close-then-open otherwise. -/
def reconcileStep (o : Order) (env : WebhookEnv) :
    List WebhookAction × WebhookResult :=
  match env.position with
  | none =>
    let ms := o.max_slippage.getD 0
    let slipReject : Bool :=
      if 0 < ms then
        let price :=
          if o.action = Action.sell then env.quote.bid_price
          else env.quote.ask_price
        decide (ms < |(price - o.price) / o.price|)
      else false
    if slipReject then ([], .slippageTooHigh)
    else
      let r := exec_trade env.account o env.execEnv env.extended_hours
      match r.result with
      | .error e => (r.actions.map WebhookAction.broker, .raised e)
      | .ok newOrder =>
        (r.actions.map WebhookAction.broker,
          .echoed { o with order_id := some newOrder.id })
  | some p =>
    if p.side = o.market_position ∨ o.market_position = MPos.flat then
      ([], .echoed o)
    else
      let closed := close_position env.closeEnv true
      let r := exec_trade env.account o env.execEnv env.extended_hours
      match r.result with
      | .error e =>
        (WebhookAction.closePos o.ticker closed ::
          r.actions.map WebhookAction.broker, .raised e)
      | .ok newOrder =>
        (WebhookAction.closePos o.ticker closed ::
          r.actions.map WebhookAction.broker,
          .echoed { o with order_id := some newOrder.id })

/-- The `webhook` endpoint (`src/app.py` lines 75-139): IP gate, request
defaulting, test-mode echo, pattern-day-trade gate, then `reconcileStep`. -/
def webhook (name : String) (o : Order) (env : WebhookEnv) :
    List WebhookAction × WebhookResult :=
  if !env.ipAllowed then ([], .unauthorized)
  else
    let o := normalizeOrder name o
    if env.testMode then ([], .echoed o)
    else if 3 ≤ env.account.daytrade_count ∧ env.account.equity < 25000 then
      ([], .patternDayTrader)
    else reconcileStep o env

/-! ### Concrete fixtures used by witnesses and counterexamples -/

/-- A healthy account: $1000 buying power, $30k equity, no day trades. -/
def acct : Account := ⟨1000, 500, 30000, 0⟩

/-- An account at the pattern-day-trade limit with equity under $25k. -/
def acctPDT : Account := ⟨1000, 500, 20000, 3⟩

/-- A plain buy signal at $50 deploying all buying power. -/
def baseOrder : Order :=
  { ticker := "AAPL", action := .buy, market_position := .long,
    price := 50, buying_power_pct := 1, leveraged := false,
    asset_class := .stock, nickname := some "n", max_slippage := some 1 }

/-- The entry order as first acknowledged by the broker. -/
def entryAck : AlpacaOrder := ⟨"e1", "AAPL", .new, 0, 0⟩

/-- The entry order fully filled: 20 shares at $50. -/
def entryFilled : AlpacaOrder := ⟨"e1", "AAPL", .filled, 20, 50⟩

/-- The entry order partially filled: 5 of 20 shares. -/
def entryPartial : AlpacaOrder := ⟨"e1", "AAPL", .partiallyFilled, 5, 50⟩

/-- The entry order expired unfilled. -/
def entryExpired : AlpacaOrder := ⟨"e1", "AAPL", .expired, 0, 0⟩

/-- The exit order as acknowledged by the broker. -/
def exitAck : AlpacaOrder := ⟨"x1", "AAPL", .new, 0, 0⟩

/-- An `exec_trade` oracle whose first poll reports the entry filled. -/
def envFilled : ExecEnv :=
  { entry := entryAck, polls := [(entryFilled, 1)], finalResult := exitAck }

/-- An account whose notional sizing ($10) is below the $50 share price. -/
def smallAcct : Account := ⟨100, 100, 30000, 0⟩

/-- A buy signal deploying 10% of buying power, no exit fields. -/
def smallOrder : Order :=
  { ticker := "AAPL", action := .buy, market_position := .long,
    price := 50, buying_power_pct := 1/10, leveraged := false,
    asset_class := .stock, nickname := some "n", max_slippage := some 1 }

/-- A signal deploying 0.5% of `smallAcct`: notional $0.50, under the $1 floor. -/
def tinyOrder : Order := { smallOrder with buying_power_pct := 1/200 }

/-- A $5000 signal with a stop loss under `acct`: 0 whole shares. -/
def qtyLowOrder : Order := { baseOrder with price := 5000, sl := some (1/20) }

/-- A signal carrying both a 5% stop loss and a 10% take profit. -/
def brOrder : Order := { baseOrder with sl := some (1/20), tp := some (1/10) }

/-- A signal carrying only a 5% stop loss. -/
def slOrder : Order := { baseOrder with sl := some (1/20) }

/-- A signal carrying only a 10% take profit. -/
def tpOrder : Order := { baseOrder with tp := some (1/10) }

/-- A signal carrying only a 3% trailing stop. -/
def trOrder : Order := { baseOrder with trailing_stop := some (3/100) }

/-- An oracle whose wait loop times out on a partial fill at 31s. -/
def envTimeout : ExecEnv :=
  { entry := entryAck, polls := [(entryPartial, 31)], finalResult := exitAck }

/-- `envFilled` with a failure injected at the entry submission. -/
def envAtSubmit : ExecEnv := { envFilled with inj := some InjSite.atSubmit }

/-- `envFilled` with a failure injected at the final submission — the
derived exit order's own `submit_order`, outside the `try` block. -/
def envAtFinal : ExecEnv := { envFilled with inj := some InjSite.atFinalSubmit }

/-- `envFilled` with a failure injected during exit-order construction. -/
def envAtConstruct : ExecEnv := { envFilled with inj := some InjSite.atConstruct }

/-- A wait loop timing out on a partial fill, then the cancel call failing. -/
def envCancelPartial : ExecEnv :=
  { entry := entryAck, polls := [(entryPartial, 31)],
    inj := some InjSite.atCancel, finalResult := exitAck }

/-- A wait loop ending with the entry expired, then the cancel call failing. -/
def envCancelExpired : ExecEnv :=
  { entry := entryAck, polls := [(entryExpired, 5)],
    inj := some InjSite.atCancel, finalResult := exitAck }

/-- An account with exactly $25,000 equity at the 3-day-trade mark. -/
def acct25k : Account := ⟨1000, 500, 25000, 3⟩

/-- A held long position of 5 AAPL shares. -/
def posLong : Position := ⟨"AAPL", .long, 5⟩

/-- The base signal flipped to the short side. -/
def shortOrder : Order := { baseOrder with market_position := .short }

/-- A $100 signal with a 1% slippage cap. -/
def slipOrder : Order :=
  { baseOrder with price := 100, max_slippage := some (1/100) }

/-- Webhook oracle: healthy account, no position, quote 99 bid / 101 ask. -/
def wEnvQuote101 : WebhookEnv :=
  { account := acct, quote := ⟨99, 101⟩, execEnv := envFilled }

/-- Webhook oracle: healthy account, no position, quote 99 bid / 102 ask. -/
def wEnvQuote102 : WebhookEnv :=
  { account := acct, quote := ⟨99, 102⟩, execEnv := envFilled }

/-- Webhook oracle: pattern-day-trade-limited account. -/
def wEnvPDT : WebhookEnv := { account := acctPDT, execEnv := envFilled }

/-- Webhook oracle: exactly $25k equity at 3 day trades. -/
def wEnv25k : WebhookEnv := { account := acct25k, execEnv := envFilled }

/-- Webhook oracle: healthy account already holding the long position. -/
def wEnvLong : WebhookEnv :=
  { account := acct, position := some posLong, execEnv := envFilled }

/-! ### Shared helper lemmas -/

/-- The request-level defaulting leaves a signal untouched when its
`nickname` and `max_slippage` are already (truthily) set. -/
theorem normalizeOrder_id (name : String) (o : Order)
    (hnick : strTruthy o.nickname = true)
    (hms : qSet o.max_slippage = true) :
    normalizeOrder name o = o := by
  simp [normalizeOrder, hnick, hms]

/-- Timeout case of the fill-wait loop: when every poll before some poll
`(a', t)` is non-terminal and pre-deadline, and `t` is at or past the
deadline, the loop stops at that poll and returns its order. -/
theorem fillWait_timeout (a a' : AlpacaOrder) (t : ℚ)
    (pre post : List (AlpacaOrder × ℚ))
    (hpre : ∀ x ∈ pre, x.1.status ∉ FINISHED_STATUSES ∧ x.2 < MAX_WAIT)
    (ha : a.status ∉ FINISHED_STATUSES) (ht : MAX_WAIT ≤ t) :
    (fillWait a (pre ++ (a', t) :: post)).order = a' ∧
    (fillWait a (pre ++ (a', t) :: post)).pollsUsed = pre.length + 1 := by
  induction pre generalizing a with
  | nil =>
    rw [List.nil_append, fillWait]
    simp [ha, ht]
  | cons x xs ih =>
    obtain ⟨hx, hxt⟩ := hpre x (List.mem_cons_self x xs)
    have hrec := ih x.1 (fun y hy => hpre y (List.mem_cons_of_mem x hy)) hx
    rw [List.cons_append, fillWait]
    simp only [if_neg ha]
    rw [if_neg (not_le.mpr hxt)]
    simp [hrec.1, hrec.2]

/-- Rounding an integer changes nothing. -/
theorem roundHalfEven_intCast (k : ℤ) : roundHalfEven (k : ℚ) = k := by
  simp [roundHalfEven, Int.floor_intCast]

/-- A value that is an exact number of cents is fixed by `round2`. -/
theorem round2_eq_self (x : ℚ) (k : ℤ) (h : x * 100 = (k : ℚ)) :
    round2 x = x := by
  rw [round2, h, roundHalfEven_intCast, ← h]
  field_simp

/-- With the IP allowed, test mode off and the pattern-day-trade gate
passing, the webhook runs the reconciliation step on the defaulted order. -/
theorem webhook_gates (name : String) (o : Order) (env : WebhookEnv)
    (hip : env.ipAllowed = true) (htm : env.testMode = false)
    (hpdt : ¬(3 ≤ env.account.daytrade_count ∧ env.account.equity < 25000)) :
    webhook name o env = reconcileStep (normalizeOrder name o) env := by
  unfold webhook
  rw [hip, htm]
  simp [hpdt]

/-- The reconciliation step never reports the pattern-day-trade error. -/
theorem reconcileStep_ne_pdt (o : Order) (env : WebhookEnv) :
    (reconcileStep o env).2 ≠ WebhookResult.patternDayTrader := by
  rcases h : env.position with _ | p <;> simp only [reconcileStep, h] <;>
    split_ifs <;>
    first
    | (split <;> simp)
    | simp

/-- Under `acct`, any unleveraged stock signal deploying all buying power
sizes to a $1000 notional. -/
theorem notional_acct (o : Order) (hl : o.leveraged = false)
    (hc : o.asset_class = AssetClass.stock) (hpct : o.buying_power_pct = 1) :
    notionalOf acct o = 1000 := by
  have hbs : buying_power_source acct o = 1000 := by
    simp [buying_power_source, hl, hc, acct]
  rw [notionalOf, hbs, hpct, mul_one]
  exact round2_eq_self 1000 100000 (by norm_num)

/-- Under `acct`, a $50 signal deploying all buying power sizes to 20 shares. -/
theorem qty_acct (o : Order) (hl : o.leveraged = false)
    (hc : o.asset_class = AssetClass.stock) (hpct : o.buying_power_pct = 1)
    (hp : o.price = 50) : qtyOf acct o = 20 := by
  rw [qtyOf, notional_acct o hl hc hpct, hp, Int.floor_eq_iff]
  norm_num

/-- Under `acct`, a $50 full-deployment stock buy signal that does not set
both exit legs builds the plain 20-share market entry. -/
theorem buildEntry_market50 (o : Order) (hl : o.leveraged = false)
    (hc : o.asset_class = AssetClass.stock) (hpct : o.buying_power_pct = 1)
    (hp : o.price = 50)
    (hone : qSet o.tp = false ∨ qSet o.sl = false) :
    buildEntry acct o false =
      .ok (OrderReq.market o.ticker 20 TimeInForce.day (entrySide o)) := by
  have hn := notional_acct o hl hc hpct
  have hq := qty_acct o hl hc hpct hp
  have htf : entryTif o = TimeInForce.day := by simp [entryTif, hc]
  rw [buildEntry.eq_def, hn, hq]
  rcases hone with h | h <;> norm_num [htf, h]

/-! ### Claim theorems -/

/-- C9: the fill-wait loop ends immediately (consuming no polls and
sleeping no further interval) when it holds a terminal status
(filled, canceled, expired, done_for_day); otherwise it stops at the
first poll whose elapsed time reaches the 30-second deadline and returns
that last observed — possibly non-terminal — order unchanged, without
issuing any cancellation. -/
theorem fillWait_bound :
    (∀ (b : AlpacaOrder) (polls : List (AlpacaOrder × ℚ)),
        b.status ∈ FINISHED_STATUSES → fillWait b polls = ⟨b, 0, 0⟩) ∧
    (∀ (a a' : AlpacaOrder) (t : ℚ) (pre post : List (AlpacaOrder × ℚ)),
        (∀ x ∈ pre, x.1.status ∉ FINISHED_STATUSES ∧ x.2 < MAX_WAIT) →
        a.status ∉ FINISHED_STATUSES → MAX_WAIT ≤ t →
        (fillWait a (pre ++ (a', t) :: post)).order = a' ∧
        (fillWait a (pre ++ (a', t) :: post)).pollsUsed = pre.length + 1) := by
  constructor
  · intro b polls hb
    rw [fillWait.eq_def]
    simp [hb]
  · intro a a' t pre post hpre ha ht
    exact fillWait_timeout a a' t pre post hpre ha ht

/-- Witness for C9: a filled order ends the wait at once; a run of
non-terminal polls ending past the deadline returns the last observed
partially-filled order. -/
theorem fillWait_bound_witness :
    fillWait entryFilled [(entryAck, 1)] = ⟨entryFilled, 0, 0⟩ ∧
    (fillWait entryAck [(entryAck, 10), (entryPartial, 31)]).order =
      entryPartial :=
  ⟨fillWait_bound.1 entryFilled [(entryAck, 1)] (by decide),
   (fillWait_bound.2 entryAck entryPartial 31 [(entryAck, 10)] []
      (by decide) (by decide) (by decide)).1⟩

/-- C7: the notional is `round2` of the selected buying-power source
(non-marginable when leveraged or crypto, else standard) times the
deployed fraction; `InsufficientNotional` is raised exactly when the
notional is below $1 and then no broker call is made; the share quantity
is the floor of notional over price and, when an exit field demands a
share-quantity entry, a quantity below 1 raises `InvalidQuantity`. -/
theorem sizing_spec (acc : Account) (o : Order) (eh : Bool) (env : ExecEnv)
    (wff : Bool) :
    notionalOf acc o =
      round2 ((if o.leveraged || o.asset_class == AssetClass.crypto then
          acc.non_marginable_buying_power else acc.buying_power) *
        o.buying_power_pct) ∧
    qtyOf acc o = ⌊notionalOf acc o / o.price⌋ ∧
    (buildEntry acc o eh = .error ExecErr.insufficientNotional ↔
      notionalOf acc o < 1) ∧
    (notionalOf acc o < 1 →
      exec_trade acc o env eh wff = ⟨[], .error ExecErr.insufficientNotional⟩) ∧
    (¬ notionalOf acc o < 1 → exitFieldSet o = true → (qtyOf acc o : ℚ) < 1 →
      buildEntry acc o eh = .error ExecErr.invalidQuantity) := by
  refine ⟨rfl, rfl, ?_, ?_, ?_⟩
  · constructor
    · intro hb
      by_contra h
      rw [buildEntry.eq_def, if_neg h] at hb
      split_ifs at hb <;> simp_all
    · intro h
      rw [buildEntry.eq_def, if_pos h]
  · intro h
    have hb : buildEntry acc o eh = .error ExecErr.insufficientNotional := by
      rw [buildEntry.eq_def]
      simp [h]
    unfold exec_trade
    rw [hb]
  · intro h1 h2 h3
    rw [buildEntry.eq_def]
    simp only [if_neg h1]
    rw [if_pos ⟨h2, h3⟩]

/-- Witness for C7: the $0.50 notional is refused with no broker call,
and the zero-share stop-loss signal is refused as an invalid quantity. -/
theorem sizing_spec_witness :
    exec_trade smallAcct tinyOrder envFilled false false =
      ⟨[], .error ExecErr.insufficientNotional⟩ ∧
    buildEntry acct qtyLowOrder false = .error ExecErr.invalidQuantity := by
  constructor
  · apply (sizing_spec smallAcct tinyOrder false envFilled false).2.2.2.1
    have hbs : buying_power_source smallAcct tinyOrder *
        tinyOrder.buying_power_pct = 1/2 := by
      norm_num [buying_power_source, smallAcct, tinyOrder, smallOrder]
    rw [notionalOf, hbs, round2_eq_self (1/2) 50 (by norm_num)]
    norm_num
  · have hn : notionalOf acct qtyLowOrder = 1000 :=
      notional_acct qtyLowOrder rfl rfl rfl
    have hq : qtyOf acct qtyLowOrder = 0 := by
      rw [qtyOf, hn, Int.floor_eq_iff]
      norm_num [qtyLowOrder, baseOrder]
    apply (sizing_spec acct qtyLowOrder false envFilled false).2.2.2.2
    · rw [hn]; norm_num
    · norm_num [exitFieldSet, qSet, qtyLowOrder, baseOrder]
    · rw [hq]; norm_num

/-- C8: a bracket order is built exactly when both take-profit and
stop-loss are set and it is not extended hours; that single request
carries the share quantity, the stop at `round2(price*(1-sl))` and the
limit at `round2(price*(1+tp))` from the signal's reference price; and
the whole execution submits exactly that one request — no separate exit
order follows a bracket entry. -/
theorem bracket_spec (acc : Account) (o : Order) (eh : Bool) (env : ExecEnv) :
    (∀ req, buildEntry acc o eh = .ok req →
      (req.order_class = OrderClass.bracket ↔
        (qSet o.tp = true ∧ qSet o.sl = true ∧ eh = false))) ∧
    ((qSet o.tp = true ∧ qSet o.sl = true ∧ eh = false ∧
        ¬ notionalOf acc o < 1 ∧ ¬ (qtyOf acc o : ℚ) < 1) →
      buildEntry acc o eh =
        .ok (OrderReq.bracketMarket o.ticker (qtyOf acc o : ℚ) TimeInForce.gtc
          (entrySide o) (round2 (o.price * (1 - o.sl.getD 0)))
          (round2 (o.price * (1 + o.tp.getD 0)))) ∧
      (exec_trade acc o env eh false).actions =
        [BrokerAction.submit (OrderReq.bracketMarket o.ticker (qtyOf acc o : ℚ)
          TimeInForce.gtc (entrySide o) (round2 (o.price * (1 - o.sl.getD 0)))
          (round2 (o.price * (1 + o.tp.getD 0))))]) := by
  constructor
  · intro req hreq
    rw [buildEntry.eq_def] at hreq
    by_cases h1 : notionalOf acc o < 1
    · rw [if_pos h1] at hreq; exact absurd hreq (by simp)
    rw [if_neg h1] at hreq
    by_cases h2 : exitFieldSet o = true ∧ ((qtyOf acc o : ℚ) < 1)
    · rw [if_pos h2] at hreq; exact absurd hreq (by simp)
    rw [if_neg h2] at hreq
    by_cases h3 : ¬(eh = true) ∧ qSet o.tp = true ∧ qSet o.sl = true ∧
        ((qtyOf acc o : ℚ) < 1)
    · rw [if_pos h3] at hreq; exact absurd hreq (by simp)
    rw [if_neg h3] at hreq
    by_cases h4 : (eh = true) ∧ o.asset_class ≠ AssetClass.crypto ∧
        ((qtyOf acc o : ℚ) < 1)
    · rw [if_pos h4] at hreq; exact absurd hreq (by simp)
    rw [if_neg h4] at hreq
    by_cases h5 : (eh = true) ∧ o.asset_class ≠ AssetClass.crypto
    · rw [if_pos h5] at hreq
      injection hreq with hr
      subst hr
      simp only [OrderReq.order_class]
      constructor
      · intro hcl; exact absurd hcl (by simp)
      · rintro ⟨-, -, hf⟩; rw [h5.1] at hf; cases hf
    rw [if_neg h5] at hreq
    by_cases h6 : ¬(eh = true) ∧ qSet o.tp = true ∧ qSet o.sl = true
    · rw [if_pos h6] at hreq
      injection hreq with hr
      subst hr
      simp only [OrderReq.order_class, true_iff]
      exact ⟨h6.2.1, h6.2.2, by simpa using h6.1⟩
    · rw [if_neg h6] at hreq
      injection hreq with hr
      subst hr
      simp only [OrderReq.order_class]
      constructor
      · intro hcl; exact absurd hcl (by simp)
      · rintro ⟨htp, hsl, hf⟩
        exact absurd ⟨by simp [hf], htp, hsl⟩ h6
  · rintro ⟨htp, hsl, heh, hn, hq⟩
    have hb : buildEntry acc o eh =
        .ok (OrderReq.bracketMarket o.ticker (qtyOf acc o : ℚ) TimeInForce.gtc
          (entrySide o) (round2 (o.price * (1 - o.sl.getD 0)))
          (round2 (o.price * (1 + o.tp.getD 0)))) := by
      rw [buildEntry.eq_def]
      rw [if_neg hn]
      rw [if_neg (fun h => hq h.2)]
      rw [if_neg (fun h => hq h.2.2.2)]
      rw [if_neg (fun h => by rw [heh] at h; simp at h)]
      rw [if_neg (fun h => by rw [heh] at h; simp at h)]
      rw [if_pos ⟨by rw [heh]; simp, htp, hsl⟩]
    refine ⟨hb, ?_⟩
    unfold exec_trade
    rw [hb]
    simp [OrderReq.order_class]
    split_ifs <;> rfl

/-- Witness for C8: the stop-loss + take-profit signal at $50 yields the
single bracket request with stop $47.50 and limit $55. -/
theorem bracket_spec_witness :
    buildEntry acct brOrder false =
      .ok (OrderReq.bracketMarket brOrder.ticker (qtyOf acct brOrder : ℚ)
        TimeInForce.gtc (entrySide brOrder)
        (round2 (brOrder.price * (1 - brOrder.sl.getD 0)))
        (round2 (brOrder.price * (1 + brOrder.tp.getD 0)))) ∧
    (exec_trade acct brOrder envFilled false false).actions =
      [BrokerAction.submit
        (OrderReq.bracketMarket brOrder.ticker (qtyOf acct brOrder : ℚ)
          TimeInForce.gtc (entrySide brOrder)
          (round2 (brOrder.price * (1 - brOrder.sl.getD 0)))
          (round2 (brOrder.price * (1 + brOrder.tp.getD 0))))] := by
  apply (bracket_spec acct brOrder false envFilled).2
  refine ⟨?_, ?_, rfl, ?_, ?_⟩
  · norm_num [qSet, brOrder, baseOrder]
  · norm_num [qSet, brOrder, baseOrder]
  · rw [notional_acct brOrder rfl rfl rfl]; norm_num
  · rw [qty_acct brOrder rfl rfl rfl rfl]; norm_num

/-- C10: with no exit field set and notional ≥ $1, the share-quantity
check is skipped, so a price above the notional yields a zero-quantity
market order that is nonetheless submitted to the broker. -/
theorem zero_qty_market_submitted :
    1 ≤ notionalOf smallAcct smallOrder ∧
    notionalOf smallAcct smallOrder < smallOrder.price ∧
    qtyOf smallAcct smallOrder = 0 ∧
    (exec_trade smallAcct smallOrder envFilled false false).actions =
      [BrokerAction.submit
        (OrderReq.market "AAPL" 0 TimeInForce.day Side.buy)] := by
  have hbs : buying_power_source smallAcct smallOrder *
      smallOrder.buying_power_pct = 10 := by
    norm_num [buying_power_source, smallAcct, smallOrder]
  have hn : notionalOf smallAcct smallOrder = 10 := by
    rw [notionalOf, hbs]
    exact round2_eq_self 10 1000 (by norm_num)
  have hq : qtyOf smallAcct smallOrder = 0 := by
    rw [qtyOf, hn, Int.floor_eq_iff]
    · norm_num [smallOrder]
  have hexit : exitFieldSet smallOrder = false := rfl
  have hb : buildEntry smallAcct smallOrder false =
      .ok (OrderReq.market "AAPL" 0 TimeInForce.day Side.buy) := by
    have ht : smallOrder.ticker = "AAPL" := rfl
    have htp : qSet smallOrder.tp = false := rfl
    have hsl : qSet smallOrder.sl = false := rfl
    have htf : entryTif smallOrder = TimeInForce.day := rfl
    have hsd : entrySide smallOrder = Side.buy := rfl
    rw [buildEntry.eq_def]
    norm_num [hn, hq, hexit, htp, hsl, ht, htf, hsd]
  refine ⟨by rw [hn]; norm_num,
    by rw [hn]; show (10 : ℚ) < smallOrder.price; norm_num [smallOrder],
    hq, ?_⟩
  have hbuy : smallOrder.action = Action.buy := rfl
  have hnb : (OrderReq.market "AAPL" 0 TimeInForce.day Side.buy).order_class ≠
      OrderClass.bracket := by simp [OrderReq.order_class]
  unfold exec_trade
  rw [hb]
  simp [hexit, hbuy, hnb, show envFilled.inj = none from rfl]

/-- C3: for a buy-side, non-bracket entry that fills, exactly one exit
order — derived from the filled average price — is submitted after the
entry: a good-till-canceled sell stop at `round2(filled_avg_price*(1-sl))`
for the full filled quantity when only the stop loss is set; a sell
stop-limit with limit `round2(filled_avg_price*(1+tp))` and stop
`round2(filled_avg_price*(1-tp))` when only the take profit is set; a
sell trailing stop with trail percent equal to the input fraction × 100
when only the trailing stop is set. -/
theorem exit_synthesis (acc : Account) (o : Order) (env : ExecEnv) (eh : Bool)
    (req0 : OrderReq)
    (hbuy : o.action = Action.buy)
    (hexit : exitFieldSet o = true)
    (hbuild : buildEntry acc o eh = .ok req0)
    (hnb : req0.order_class ≠ OrderClass.bracket)
    (hinj : env.inj = none)
    (hfill : (fillWait env.entry env.polls).order.status = OrderStatus.filled) :
    (exec_trade acc o env eh false).actions =
      [BrokerAction.submit req0,
       BrokerAction.submit (exitRequest o (fillWait env.entry env.polls).order)] ∧
    (∀ (a : AlpacaOrder) (x : ℚ), o.sl = some x → x ≠ 0 →
      exitRequest o a = OrderReq.stop a.symbol a.filled_qty TimeInForce.gtc
        Side.sell (round2 (a.filled_avg_price * (1 - x)))) ∧
    (∀ (a : AlpacaOrder) (x : ℚ), qSet o.sl = false → o.tp = some x → x ≠ 0 →
      exitRequest o a = OrderReq.stopLimit a.symbol a.filled_qty TimeInForce.gtc
        Side.sell (round2 (a.filled_avg_price * (1 + x)))
        (round2 (a.filled_avg_price * (1 - x)))) ∧
    (∀ (a : AlpacaOrder) (x : ℚ), qSet o.sl = false → qSet o.tp = false →
      o.trailing_stop = some x →
      exitRequest o a = OrderReq.trailingStop a.symbol a.filled_qty
        TimeInForce.gtc Side.sell (x * 100)) := by
  refine ⟨?_, ?_, ?_, ?_⟩
  · unfold exec_trade
    rw [hbuild]
    simp [hbuy, hexit, hnb, hinj, hfill]
  · intro a x hx hx0
    simp [exitRequest, qSet, hx, hx0]
  · intro a x hsl hx hx0
    unfold exitRequest
    rw [if_neg (by simp [hsl])]
    simp [qSet, hx, hx0]
  · intro a x hsl htp hx
    unfold exitRequest
    rw [if_neg (by simp [hsl]), if_neg (by simp [htp]), hx]
    simp

/-- Witness for C3: each of the three single-exit-field signals submits
its entry and then exactly the derived exit order. -/
theorem exit_synthesis_witness :
    ((exec_trade acct slOrder envFilled false false).actions =
      [BrokerAction.submit
        (OrderReq.market slOrder.ticker 20 TimeInForce.day (entrySide slOrder)),
       BrokerAction.submit
        (exitRequest slOrder (fillWait envFilled.entry envFilled.polls).order)] ∧
      exitRequest slOrder entryFilled =
        OrderReq.stop entryFilled.symbol entryFilled.filled_qty TimeInForce.gtc
          Side.sell (round2 (entryFilled.filled_avg_price * (1 - 1/20)))) ∧
    exitRequest tpOrder entryFilled =
      OrderReq.stopLimit entryFilled.symbol entryFilled.filled_qty
        TimeInForce.gtc Side.sell
        (round2 (entryFilled.filled_avg_price * (1 + 1/10)))
        (round2 (entryFilled.filled_avg_price * (1 - 1/10))) ∧
    exitRequest trOrder entryFilled =
      OrderReq.trailingStop entryFilled.symbol entryFilled.filled_qty
        TimeInForce.gtc Side.sell (3/100 * 100) := by
  have hb : buildEntry acct slOrder false =
      .ok (OrderReq.market slOrder.ticker 20 TimeInForce.day (entrySide slOrder)) :=
    buildEntry_market50 slOrder rfl rfl rfl rfl (Or.inl rfl)
  have h1 := exit_synthesis acct slOrder envFilled false _ rfl
    (by norm_num [exitFieldSet, qSet, slOrder, baseOrder]) hb
    (by simp [OrderReq.order_class]) rfl (by decide)
  have h2 := exit_synthesis acct tpOrder envFilled false _ rfl
    (by norm_num [exitFieldSet, qSet, tpOrder, baseOrder])
    (buildEntry_market50 tpOrder rfl rfl rfl rfl (Or.inr rfl))
    (by simp [OrderReq.order_class]) rfl (by decide)
  have h3 := exit_synthesis acct trOrder envFilled false _ rfl
    (by norm_num [exitFieldSet, qSet, trOrder, baseOrder])
    (buildEntry_market50 trOrder rfl rfl rfl rfl (Or.inl rfl))
    (by simp [OrderReq.order_class]) rfl (by decide)
  exact ⟨⟨h1.1, h1.2.1 entryFilled (1/20) rfl (by norm_num)⟩,
    h2.2.2.1 entryFilled (1/10) rfl rfl (by norm_num),
    h3.2.2.2 entryFilled (3/100) rfl rfl rfl⟩

/-- C4: for a buy-side, non-bracket entry with an exit field, when the
fill wait ends with the entry not filled, the order is canceled by id,
the returned order's status is set to canceled, and no exit order is
submitted. -/
theorem entry_not_filled (acc : Account) (o : Order) (env : ExecEnv)
    (eh : Bool) (req0 : OrderReq)
    (hbuy : o.action = Action.buy)
    (hexit : exitFieldSet o = true)
    (hbuild : buildEntry acc o eh = .ok req0)
    (hnb : req0.order_class ≠ OrderClass.bracket)
    (hinj : env.inj = none)
    (hnf : (fillWait env.entry env.polls).order.status ≠ OrderStatus.filled) :
    exec_trade acc o env eh false =
      ⟨[BrokerAction.submit req0,
        BrokerAction.cancel (fillWait env.entry env.polls).order.id],
       .ok { (fillWait env.entry env.polls).order with
              status := OrderStatus.canceled }⟩ := by
  unfold exec_trade
  rw [hbuild]
  simp [hbuy, hexit, hnb, hinj, hnf]

/-- Witness for C4: a stop-loss signal whose entry times out partially
filled is canceled and returned with status canceled, no exit order. -/
theorem entry_not_filled_witness :
    exec_trade acct slOrder envTimeout false false =
      ⟨[BrokerAction.submit
          (OrderReq.market slOrder.ticker 20 TimeInForce.day (entrySide slOrder)),
        BrokerAction.cancel (fillWait envTimeout.entry envTimeout.polls).order.id],
       .ok { (fillWait envTimeout.entry envTimeout.polls).order with
              status := OrderStatus.canceled }⟩ :=
  entry_not_filled acct slOrder envTimeout false _ rfl
    (by norm_num [exitFieldSet, qSet, slOrder, baseOrder])
    (buildEntry_market50 slOrder rfl rfl rfl rfl (Or.inl rfl))
    (by simp [OrderReq.order_class]) rfl (by decide)

/-- The derived exit request is a stop, stop-limit or trailing-stop
order, never a plain market order — so its submission is never a
market-sell liquidation. -/
theorem exitRequest_ne_market (o : Order) (a : AlpacaOrder) (s : String)
    (q : ℚ) (tif : TimeInForce) (sd : Side) :
    exitRequest o a ≠ OrderReq.market s q tif sd := by
  unfold exitRequest
  split_ifs <;> simp

/-- C2 (amended): for every execution in which an error is raised after
the entry order was submitted in the exit-order path, if the error
arises inside the `try` block of lines 172-248 (status polling, the
cancel of an unfilled entry, or exit-order construction), the `except`
handler acts on the entry's last known status: filled ⇒ exactly one
market sell for the full filled quantity is submitted before the
original error is re-raised; partially_filled ⇒ the order is canceled
and one market sell for the filled quantity is submitted before
re-raising; any other bound status ⇒ the original failure propagates
unchanged with no liquidation.  Two carve-outs the code forces: when the
submission of the derived exit order itself fails (lines 250-253, outside
the `try`), the error propagates with no liquidation even though the
entry is filled — the only submissions are the entry and the attempted
non-market exit request; and when the entry submission itself fails, the
handler reads the never-bound local `alpaca_order`, so an
`UnboundLocalError` escapes in place of the original error, again with
no liquidation. -/
theorem failure_recovery (acc : Account) (o : Order) (env : ExecEnv)
    (eh : Bool) (req0 : OrderReq)
    (hbuy : o.action = Action.buy)
    (hexit : exitFieldSet o = true)
    (hbuild : buildEntry acc o eh = .ok req0)
    (hnb : req0.order_class ≠ OrderClass.bracket) :
    (env.inj = some InjSite.atConstruct →
      (fillWait env.entry env.polls).order.status = OrderStatus.filled →
      exec_trade acc o env eh false =
        ⟨[BrokerAction.submit req0,
          BrokerAction.submit (OrderReq.market
            (fillWait env.entry env.polls).order.symbol
            (fillWait env.entry env.polls).order.filled_qty
            TimeInForce.gtc Side.sell)],
         .error ExecErr.injected⟩) ∧
    (env.inj = some InjSite.atCancel →
      (fillWait env.entry env.polls).order.status =
        OrderStatus.partiallyFilled →
      exec_trade acc o env eh false =
        ⟨[BrokerAction.submit req0,
          BrokerAction.cancel (fillWait env.entry env.polls).order.id,
          BrokerAction.cancel (fillWait env.entry env.polls).order.id,
          BrokerAction.submit (OrderReq.market
            (fillWait env.entry env.polls).order.symbol
            (fillWait env.entry env.polls).order.filled_qty
            TimeInForce.gtc Side.sell)],
         .error ExecErr.injected⟩) ∧
    (env.inj = some InjSite.atCancel →
      (fillWait env.entry env.polls).order.status ≠ OrderStatus.filled →
      (fillWait env.entry env.polls).order.status ≠
        OrderStatus.partiallyFilled →
      exec_trade acc o env eh false =
        ⟨[BrokerAction.submit req0,
          BrokerAction.cancel (fillWait env.entry env.polls).order.id],
         .error ExecErr.injected⟩) ∧
    (env.inj = some InjSite.atFinalSubmit →
      (fillWait env.entry env.polls).order.status = OrderStatus.filled →
      exec_trade acc o env eh false =
        ⟨[BrokerAction.submit req0,
          BrokerAction.submit
            (exitRequest o (fillWait env.entry env.polls).order)],
         .error ExecErr.injected⟩ ∧
      (∀ (s : String) (q : ℚ) (tif : TimeInForce) (sd : Side),
        exitRequest o (fillWait env.entry env.polls).order ≠
          OrderReq.market s q tif sd)) ∧
    (env.inj = some InjSite.atSubmit →
      exec_trade acc o env eh false =
        ⟨[BrokerAction.submit req0], .error ExecErr.nameError⟩) := by
  refine ⟨?_, ?_, ?_, ?_, ?_⟩
  · intro hinj hfill
    unfold exec_trade
    rw [hbuild]
    simp [hbuy, hexit, hnb, hinj, hfill, recover]
  · intro hinj hpart
    unfold exec_trade
    rw [hbuild]
    simp [hbuy, hexit, hnb, hinj, hpart, recover]
  · intro hinj hnf hnp
    unfold exec_trade
    rw [hbuild]
    simp [hbuy, hexit, hnb, hinj, hnf, hnp, recover]
  · intro hinj hfill
    refine ⟨?_, fun s q tif sd => exitRequest_ne_market o _ s q tif sd⟩
    unfold exec_trade
    rw [hbuild]
    simp [hbuy, hexit, hnb, hinj, hfill]
  · intro hinj
    unfold exec_trade
    rw [hbuild]
    simp [hbuy, hexit, hnb, hinj, recover]

/-- Witness for C2's amended theorem: all five outcomes at concrete
inputs — liquidation after a full fill, cancel-plus-liquidation after a
partial fill, unchanged propagation after an expired entry, the
unprotected failure of the derived exit order's own submission after a
full fill, and the escaping name error when the entry submission itself
failed. -/
theorem failure_recovery_witness :
    exec_trade acct slOrder envAtConstruct false false =
      ⟨[BrokerAction.submit
          (OrderReq.market slOrder.ticker 20 TimeInForce.day (entrySide slOrder)),
        BrokerAction.submit (OrderReq.market
          (fillWait envAtConstruct.entry envAtConstruct.polls).order.symbol
          (fillWait envAtConstruct.entry envAtConstruct.polls).order.filled_qty
          TimeInForce.gtc Side.sell)],
       .error ExecErr.injected⟩ ∧
    exec_trade acct slOrder envCancelPartial false false =
      ⟨[BrokerAction.submit
          (OrderReq.market slOrder.ticker 20 TimeInForce.day (entrySide slOrder)),
        BrokerAction.cancel
          (fillWait envCancelPartial.entry envCancelPartial.polls).order.id,
        BrokerAction.cancel
          (fillWait envCancelPartial.entry envCancelPartial.polls).order.id,
        BrokerAction.submit (OrderReq.market
          (fillWait envCancelPartial.entry envCancelPartial.polls).order.symbol
          (fillWait envCancelPartial.entry envCancelPartial.polls).order.filled_qty
          TimeInForce.gtc Side.sell)],
       .error ExecErr.injected⟩ ∧
    exec_trade acct slOrder envCancelExpired false false =
      ⟨[BrokerAction.submit
          (OrderReq.market slOrder.ticker 20 TimeInForce.day (entrySide slOrder)),
        BrokerAction.cancel
          (fillWait envCancelExpired.entry envCancelExpired.polls).order.id],
       .error ExecErr.injected⟩ ∧
    exec_trade acct slOrder envAtFinal false false =
      ⟨[BrokerAction.submit
          (OrderReq.market slOrder.ticker 20 TimeInForce.day (entrySide slOrder)),
        BrokerAction.submit
          (exitRequest slOrder (fillWait envAtFinal.entry envAtFinal.polls).order)],
       .error ExecErr.injected⟩ ∧
    exec_trade acct slOrder envAtSubmit false false =
      ⟨[BrokerAction.submit
          (OrderReq.market slOrder.ticker 20 TimeInForce.day (entrySide slOrder))],
       .error ExecErr.nameError⟩ := by
  have hb : buildEntry acct slOrder false =
      .ok (OrderReq.market slOrder.ticker 20 TimeInForce.day (entrySide slOrder)) :=
    buildEntry_market50 slOrder rfl rfl rfl rfl (Or.inl rfl)
  have hx : exitFieldSet slOrder = true := by
    norm_num [exitFieldSet, qSet, slOrder, baseOrder]
  exact ⟨(failure_recovery acct slOrder envAtConstruct false _ rfl hx hb
      (by simp [OrderReq.order_class])).1 rfl (by decide),
    (failure_recovery acct slOrder envCancelPartial false _ rfl hx hb
      (by simp [OrderReq.order_class])).2.1 rfl (by decide),
    (failure_recovery acct slOrder envCancelExpired false _ rfl hx hb
      (by simp [OrderReq.order_class])).2.2.1 rfl (by decide) (by decide),
    ((failure_recovery acct slOrder envAtFinal false _ rfl hx hb
      (by simp [OrderReq.order_class])).2.2.2.1 rfl (by decide)).1,
    (failure_recovery acct slOrder envAtSubmit false _ rfl hx hb
      (by simp [OrderReq.order_class])).2.2.2.2 rfl⟩

/-- Counterexample to C2 as stated, at two concrete inputs.  First, with
the failure injected at the submission of the derived exit order
(utils.py lines 250-253, outside the `try`): the entry's last known
status is filled, yet the execution's only broker calls are the entry
submission and the attempted (non-market) exit request — no market sell
for the filled quantity is ever submitted, refuting "if the entry's last
known status is filled then exactly one market sell order for the full
filled quantity is submitted before the original error is re-raised".
Second, with the failure injected at the entry submission itself: the
escaping error is the handler's `UnboundLocalError`, not the original
failure, refuting "the original failure is propagated unchanged". -/
theorem failure_recovery_counterexample :
    ((fillWait envAtFinal.entry envAtFinal.polls).order.status =
        OrderStatus.filled ∧
      exec_trade acct slOrder envAtFinal false false =
        ⟨[BrokerAction.submit
            (OrderReq.market slOrder.ticker 20 TimeInForce.day
              (entrySide slOrder)),
          BrokerAction.submit
            (exitRequest slOrder
              (fillWait envAtFinal.entry envAtFinal.polls).order)],
         .error ExecErr.injected⟩ ∧
      BrokerAction.submit (OrderReq.market
          (fillWait envAtFinal.entry envAtFinal.polls).order.symbol
          (fillWait envAtFinal.entry envAtFinal.polls).order.filled_qty
          TimeInForce.gtc Side.sell) ∉
        (exec_trade acct slOrder envAtFinal false false).actions) ∧
    (exec_trade acct slOrder envAtSubmit false false =
      ⟨[BrokerAction.submit
          (OrderReq.market slOrder.ticker 20 TimeInForce.day
            (entrySide slOrder))],
       .error ExecErr.nameError⟩ ∧
    ExecErr.nameError ≠ ExecErr.injected) := by
  have hb : buildEntry acct slOrder false =
      .ok (OrderReq.market slOrder.ticker 20 TimeInForce.day (entrySide slOrder)) :=
    buildEntry_market50 slOrder rfl rfl rfl rfl (Or.inl rfl)
  have hx : exitFieldSet slOrder = true := by
    norm_num [exitFieldSet, qSet, slOrder, baseOrder]
  have hbuyo : slOrder.action = Action.buy := rfl
  have hnb : (OrderReq.market slOrder.ticker 20 TimeInForce.day
      (entrySide slOrder)).order_class ≠ OrderClass.bracket := by
    simp [OrderReq.order_class]
  have htrF : exec_trade acct slOrder envAtFinal false false =
      ⟨[BrokerAction.submit
          (OrderReq.market slOrder.ticker 20 TimeInForce.day
            (entrySide slOrder)),
        BrokerAction.submit
          (exitRequest slOrder
            (fillWait envAtFinal.entry envAtFinal.polls).order)],
       .error ExecErr.injected⟩ := by
    unfold exec_trade
    rw [hb]
    simp [hbuyo, hx, hnb, show envAtFinal.inj = some InjSite.atFinalSubmit
      from rfl, show (fillWait envAtFinal.entry envAtFinal.polls).order.status
      = OrderStatus.filled by decide]
  refine ⟨⟨by decide, htrF, ?_⟩, ?_, by simp⟩
  · rw [htrF]
    intro hmem
    rcases List.mem_cons.mp hmem with h | h
    · have h' := BrokerAction.submit.inj h
      simp [entrySide, hbuyo] at h'
    · rcases List.mem_cons.mp h with h | h
      · have h' := BrokerAction.submit.inj h
        exact absurd h'.symm (exitRequest_ne_market slOrder _ _ _ _ _)
      · simp at h
  · unfold exec_trade
    rw [hb]
    simp [recover, hx, hnb, hbuyo,
      show envAtSubmit.inj = some InjSite.atSubmit from rfl]

/-- C6: the trade is refused as a pattern-day-trade block exactly when the
account has at least 3 day trades and equity strictly below $25,000
(equity exactly $25,000 passes the strict test), and the refusal happens
with no broker action taken. -/
theorem pdt_guard (name : String) (o : Order) (env : WebhookEnv)
    (hip : env.ipAllowed = true) (htm : env.testMode = false) :
    ((webhook name o env).2 = WebhookResult.patternDayTrader ↔
      (3 ≤ env.account.daytrade_count ∧ env.account.equity < 25000)) ∧
    ((3 ≤ env.account.daytrade_count ∧ env.account.equity < 25000) →
      webhook name o env = ([], WebhookResult.patternDayTrader)) := by
  by_cases hpdt : 3 ≤ env.account.daytrade_count ∧ env.account.equity < 25000
  · have hw : webhook name o env = ([], WebhookResult.patternDayTrader) := by
      unfold webhook
      rw [hip, htm]
      simp [hpdt]
    exact ⟨by simp [hw, hpdt], fun _ => hw⟩
  · refine ⟨?_, fun h => absurd h hpdt⟩
    rw [webhook_gates name o env hip htm hpdt, iff_false_intro hpdt,
      iff_false]
    exact reconcileStep_ne_pdt _ env

/-- Witness for C6: the 3-day-trade, $20k-equity account is refused with
no broker action; at exactly $25k equity the refusal does not fire. -/
theorem pdt_guard_witness :
    webhook "a" baseOrder wEnvPDT = ([], WebhookResult.patternDayTrader) ∧
    (webhook "a" baseOrder wEnv25k).2 ≠ WebhookResult.patternDayTrader :=
  ⟨(pdt_guard "a" baseOrder wEnvPDT rfl rfl).2 (by decide),
   fun h => absurd ((pdt_guard "a" baseOrder wEnv25k rfl rfl).1.mp h)
     (by decide)⟩

/-- C5: when opening a fresh position with a positive slippage cap, the
quote price is the bid for sell signals and the ask for buy signals, and
the trade is rejected as slippage-too-high exactly when
`|(quote_price - price) / price|` strictly exceeds the cap (equality
passes); a rejection performs no broker action. -/
theorem slippage_guard (name : String) (o : Order) (env : WebhookEnv)
    (ms : ℚ)
    (hip : env.ipAllowed = true) (htm : env.testMode = false)
    (hnick : strTruthy o.nickname = true)
    (hms : o.max_slippage = some ms) (hmspos : 0 < ms)
    (hpdt : ¬(3 ≤ env.account.daytrade_count ∧ env.account.equity < 25000))
    (hpos : env.position = none) :
    ((webhook name o env).2 = WebhookResult.slippageTooHigh ↔
      ms < |((if o.action = Action.sell then env.quote.bid_price
        else env.quote.ask_price) - o.price) / o.price|) ∧
    (ms < |((if o.action = Action.sell then env.quote.bid_price
        else env.quote.ask_price) - o.price) / o.price| →
      webhook name o env = ([], WebhookResult.slippageTooHigh)) := by
  have hqs : qSet o.max_slippage = true := by
    simp [qSet, hms]
    exact ne_of_gt hmspos
  have hw := webhook_gates name o env hip htm hpdt
  rw [normalizeOrder_id name o hnick hqs] at hw
  rw [hw]
  simp only [reconcileStep, hpos, hms, Option.getD_some]
  rw [if_pos hmspos]
  by_cases hs : ms < |((if o.action = Action.sell then env.quote.bid_price
      else env.quote.ask_price) - o.price) / o.price|
  · rw [if_pos (by simpa using hs)]
    exact ⟨by simp [hs], fun _ => rfl⟩
  · rw [if_neg (by simpa using hs)]
    refine ⟨?_, fun h => absurd h hs⟩
    rcases hres : (exec_trade env.account o env.execEnv
        env.extended_hours).result with e | a <;>
      simp [hres, hs]

/-- Witness for C5: price 100, cap 1% — ask 101 gives slippage exactly 1%
and is accepted; ask 102 gives 2% and is rejected before any broker
action. -/
theorem slippage_guard_witness :
    (webhook "a" slipOrder wEnvQuote101).2 ≠ WebhookResult.slippageTooHigh ∧
    webhook "a" slipOrder wEnvQuote102 = ([], WebhookResult.slippageTooHigh) := by
  constructor
  · intro h
    have hmp := (slippage_guard "a" slipOrder wEnvQuote101 (1/100) rfl rfl
      (by decide) rfl (by norm_num) (by decide) rfl).1.mp h
    rw [show (if slipOrder.action = Action.sell then
          wEnvQuote101.quote.bid_price else wEnvQuote101.quote.ask_price) =
        101 from rfl,
      show slipOrder.price = (100 : ℚ) from rfl,
      show ((101 : ℚ) - 100) / 100 = 1/100 by norm_num,
      abs_of_nonneg (by norm_num : (0 : ℚ) ≤ 1/100)] at hmp
    exact absurd hmp (by norm_num)
  · apply (slippage_guard "a" slipOrder wEnvQuote102 (1/100) rfl rfl
      (by decide) rfl (by norm_num) (by decide) rfl).2
    rw [show (if slipOrder.action = Action.sell then
          wEnvQuote102.quote.bid_price else wEnvQuote102.quote.ask_price) =
        102 from rfl,
      show slipOrder.price = (100 : ℚ) from rfl,
      show ((102 : ℚ) - 100) / 100 = 1/50 by norm_num,
      abs_of_nonneg (by norm_num : (0 : ℚ) ≤ 1/50)]
    norm_num

/-- C1: with a position held, if the held side equals the desired market
position or the desired position is flat, the request is an idempotent
no-op — no broker action, the signal echoed back unchanged; if the sides
differ, the position is closed first (the close call running its own
bounded fill wait) and only then do the `exec_trade` submissions for the
new side follow, in that order. -/
theorem reconcile_positions (name : String) (o : Order) (env : WebhookEnv)
    (p : Position)
    (hip : env.ipAllowed = true) (htm : env.testMode = false)
    (hnick : strTruthy o.nickname = true)
    (hqs : qSet o.max_slippage = true)
    (hpdt : ¬(3 ≤ env.account.daytrade_count ∧ env.account.equity < 25000))
    (hpos : env.position = some p) :
    ((p.side = o.market_position ∨ o.market_position = MPos.flat) →
      webhook name o env = ([], WebhookResult.echoed o)) ∧
    (p.side ≠ o.market_position → o.market_position ≠ MPos.flat →
      (webhook name o env).1 =
        WebhookAction.closePos o.ticker (close_position env.closeEnv true) ::
          (exec_trade env.account o env.execEnv
            env.extended_hours).actions.map WebhookAction.broker) := by
  have hw := webhook_gates name o env hip htm hpdt
  rw [normalizeOrder_id name o hnick hqs] at hw
  constructor
  · intro h
    rw [hw]
    simp only [reconcileStep, hpos]
    rw [if_pos h]
  · intro h1 h2
    rw [hw]
    simp only [reconcileStep, hpos]
    rw [if_neg (not_or.mpr ⟨h1, h2⟩)]
    rcases hres : (exec_trade env.account o env.execEnv
        env.extended_hours).result with e | a <;>
      simp [hres]

/-- Witness for C1: holding a long position, a long signal is echoed back
with no broker action; a short signal produces the close of the held
position followed by exactly the new-entry submissions. -/
theorem reconcile_positions_witness :
    webhook "a" baseOrder wEnvLong = ([], WebhookResult.echoed baseOrder) ∧
    (webhook "a" shortOrder wEnvLong).1 =
      WebhookAction.closePos shortOrder.ticker
          (close_position wEnvLong.closeEnv true) ::
        (exec_trade wEnvLong.account shortOrder wEnvLong.execEnv
          wEnvLong.extended_hours).actions.map WebhookAction.broker :=
  ⟨(reconcile_positions "a" baseOrder wEnvLong posLong rfl rfl (by decide)
      (by decide) (by decide) rfl).1 (Or.inl rfl),
   (reconcile_positions "a" shortOrder wEnvLong posLong rfl rfl (by decide)
      (by decide) (by decide) rfl).2 (by decide) (by decide)⟩

end WebhookTrader
